import Mathlib

/-
  Verification development for the api-client HTTP core.
  The definitions below are a shallow embedding of the TypeScript source
  (AlApiClient in the repository): pure computations become Lean functions,
  the mutable cache and resolution maps become explicit state passing, and
  asynchronous transport calls become oracle parameters.
-/

/-- A JavaScript value, restricted to the shapes that flow through the
client's cache and transport in the claims under study: null/undefined,
strings, numbers, arrays of strings (service-name lists) and plain objects
mapping strings to strings (endpoint collections). -/
inductive JVal where
  | null : JVal
  | str (s : String) : JVal
  | num (n : Int) : JVal
  | arr (l : List String) : JVal
  | map (entries : List (String × String)) : JVal
deriving Repr, DecidableEq

/-- JavaScript truthiness of a `JVal`: null/undefined and the empty string
and zero are falsy; arrays and objects are always truthy. -/
def jTruthy : JVal → Bool
  | .null => false
  | .str s => s ≠ ""
  | .num n => n ≠ 0
  | .arr _ => true
  | .map _ => true

/-- Modelled from the spec: a cache entry of the AlCabinet ephemeral store
(the store itself lives in the external al-common package, not under src/):
"CacheEntry<T>: value plus absolute expiry; keyed by string" (spec section 3). -/
structure CacheEntry where
  value : JVal
  expiry : Nat
deriving Repr, DecidableEq

/-- The ephemeral cache: an association list from string keys to entries. -/
abbrev CacheStore := List (String × CacheEntry)

/-- First-match lookup in an association list, matching JavaScript object
property lookup under the overwrite-by-prepending convention used below. -/
def lookupAssoc {α : Type} : List (String × α) → String → Option α
  | [], _ => none
  | (k, v) :: rest, key => if k = key then some v else lookupAssoc rest key

/-- Property assignment on an association list: the new binding shadows any
older binding for the same key. -/
def insertAssoc {α : Type} (k : String) (v : α) (s : List (String × α)) : List (String × α) :=
  (k, v) :: s

/-- Modelled from the spec: AlCabinet `get` — "get on an expired entry returns
absent and the entry is treated as evicted" (spec section 4.3); `now` is the
current time in milliseconds. -/
def cabinetGet (s : CacheStore) (now : Nat) (k : String) : Option JVal :=
  match lookupAssoc s k with
  | some e => if now < e.expiry then some e.value else none
  | none => none

/-- Modelled from the spec: AlCabinet `set` with a time-to-live expressed in
seconds, as the source passes seconds to `storage.set`; the absolute expiry is
`now + ttlSeconds * 1000` milliseconds. -/
def cabinetSet (s : CacheStore) (now : Nat) (k : String) (v : JVal) (ttlSeconds : Nat) : CacheStore :=
  insertAssoc k ⟨v, now + ttlSeconds * 1000⟩ s

/-- Modelled from the spec: AlCabinet `delete` removes the binding for a key. -/
def cabinetDelete (s : CacheStore) (k : String) : CacheStore :=
  s.filter (fun e => e.1 ≠ k)

/-- AlApiClient.setCachedValue (src/unnamed/part_001 lines 548-553): a ttl
below 1000 milliseconds returns without touching the store; otherwise the
value is stored with `Math.floor(ttl / 1000)` seconds of life. -/
def setCachedValue (s : CacheStore) (now : Nat) (k : String) (v : JVal) (ttlMs : Nat) : CacheStore :=
  if ttlMs < 1000 then s else cabinetSet s now k v (ttlMs / 1000)

/-- The version field of a request descriptor: a string or a number
(`version?: string|number` in the source). -/
inductive JsVersion where
  | vstr (s : String) : JsVersion
  | vnum (n : Int) : JsVersion
deriving Repr, DecidableEq

/-- The ttl field of a request descriptor: a number of milliseconds or a
boolean flag (`ttl?: number|boolean` in the source). -/
inductive JsTtl where
  | tnum (n : Nat) : JsTtl
  | tbool (b : Bool) : JsTtl
deriving Repr, DecidableEq

/-- The APIRequestParams descriptor (src/unnamed/part_001 lines 22-55 plus
the AxiosRequestConfig fields the client reads or writes).  Every field is an
`Option`: `none` models an absent property, mirroring `hasOwnProperty`. -/
structure APIRequestParams where
  service_stack : Option String := none
  service_name : Option String := none
  residency : Option String := none
  version : Option JsVersion := none
  account_id : Option String := none
  path : Option String := none
  noEndpointsResolution : Option Bool := none
  ttl : Option JsTtl := none
  retry_count : Option Nat := none
  retry_interval : Option Nat := none
  accept_header : Option String := none
  response_type : Option String := none
  headers : Option (List (String × String)) := none
  url : Option String := none
  method : Option String := none
  params : Option (List (String × String)) := none
  responseType : Option String := none
deriving Repr, DecidableEq

/-- Modelled from the spec: AlLocation.InsightAPI, the location identifier of
the dynamically discovered service stack, a string constant exported by the
external al-common package (not under src/). -/
def insightAPI : String := "insight:api"

/-- AlApiClient.defaultServiceParams (src/unnamed/part_001 lines 63-68): the
process-wide default request parameters. -/
def defaultServiceParams : APIRequestParams :=
  { service_stack := some insightAPI
    residency := some "default"
    version := some (.vstr "v1")
    ttl := some (.tbool false) }

/-- Object.assign({}, g, c): every own property of `c` wins over `g`
(src/unnamed/part_001 line 326). -/
def mergeParams (g c : APIRequestParams) : APIRequestParams :=
  { service_stack := c.service_stack <|> g.service_stack
    service_name := c.service_name <|> g.service_name
    residency := c.residency <|> g.residency
    version := c.version <|> g.version
    account_id := c.account_id <|> g.account_id
    path := c.path <|> g.path
    noEndpointsResolution := c.noEndpointsResolution <|> g.noEndpointsResolution
    ttl := c.ttl <|> g.ttl
    retry_count := c.retry_count <|> g.retry_count
    retry_interval := c.retry_interval <|> g.retry_interval
    accept_header := c.accept_header <|> g.accept_header
    response_type := c.response_type <|> g.response_type
    headers := c.headers <|> g.headers
    url := c.url <|> g.url
    method := c.method <|> g.method
    params := c.params <|> g.params
    responseType := c.responseType <|> g.responseType }

/-- JavaScript truthiness of an optional string: absent and empty are falsy. -/
def truthyOS : Option String → Bool
  | some s => s ≠ ""
  | none => false

/-- JavaScript truthiness of an optional boolean: absent is falsy. -/
def truthyOB : Option Bool → Bool
  | some b => b
  | none => false

/-- The JavaScript expression `a || b` on an optional string against a string
default: an absent or empty string falls through to the default. -/
def jsOrStr (a : Option String) (b : String) : String :=
  match a with
  | some s => if s = "" then b else s
  | none => b

/-- JavaScript object property overwrite on a headers object: replaces the
value when the key exists, otherwise appends the binding. -/
def hSet (h : List (String × String)) (k v : String) : List (String × String) :=
  if h.any (fun p => p.1 = k) then
    h.map (fun p => if p.1 = k then (k, v) else p)
  else h ++ [(k, v)]

/-- AlApiClient.calculateRequestURL (src/unnamed/part_001 lines 346-373).
`resolveHost` models the lookup `serviceCollection[params.service_name]` in
the collection produced by `prepare` (whose state transition is embedded
separately as `prepare` below); `locatorURL` models the external
AlLocatorService.resolveURL.  A lookup that comes back absent is coerced to
the string "undefined" exactly as JavaScript string concatenation would. -/
def calculateRequestURL (resolveHost : String → String → Option String)
    (locatorURL : Option String → String) (defaultAccountId : Option String)
    (p : APIRequestParams) : String :=
  let base :=
    if truthyOS p.service_name && p.service_stack == some insightAPI
        && !(truthyOB p.noEndpointsResolution) then
      match resolveHost (jsOrStr p.account_id (jsOrStr defaultAccountId "0"))
          (p.service_name.getD "") with
      | some h => h
      | none => "undefined"
    else locatorURL p.service_stack
  let f1 := if truthyOS p.service_name then base ++ "/" ++ p.service_name.getD "" else base
  let f2 :=
    match p.version with
    | some (.vstr s) => if s = "" then f1 else f1 ++ "/" ++ s
    | some (.vnum n) => if n = 0 then f1 else if 0 < n then f1 ++ "/v" ++ toString n else f1
    | none => f1
  let f3 :=
    match p.account_id with
    | some a => if a ≠ "" && a ≠ "0" then f2 ++ "/" ++ a else f2
    | none => f2
  match p.path with
  | some pth =>
      if pth = "" then f3
      else f3 ++ (if pth.startsWith "/" then "" else "/") ++ pth
  | none => f3

/-- Result of a call to normalizeRequest, tracking JavaScript object identity
and aliasing explicitly: `result` is the returned object, `inputAfter` is the
state of the caller's descriptor object after the call (the call can mutate it
in place, or mutate its nested headers object through the shallow
Object.assign copy), and `freshResult` records whether the returned object is
distinct from the input object. -/
structure NormalizeOutcome where
  result : APIRequestParams
  inputAfter : APIRequestParams
  freshResult : Bool
deriving Repr, DecidableEq

/-- AlApiClient.normalizeRequest (src/unnamed/part_001 lines 323-344).  When
the descriptor has a service identity, `Object.assign({}, global, config)`
makes a shallow copy whose `headers` field still aliases the input's headers
object; writing `config.headers.Accept` through that alias mutates the
input's nested headers.  Without a service identity no copy is made and the
deprecated-field folding mutates the input object itself. -/
def normalizeRequest (resolveHost : String → String → Option String)
    (locatorURL : Option String → String) (defaultAccountId : Option String)
    (global input : APIRequestParams) : NormalizeOutcome :=
  if input.service_name.isSome || input.service_stack.isSome then
    let c0 := mergeParams global input
    let aliasedHeaders := input.headers.isSome
    let c1 := { c0 with url := some (calculateRequestURL resolveHost locatorURL defaultAccountId c0) }
    let step2 :=
      if truthyOS c1.accept_header then
        let h := hSet (c1.headers.getD []) "Accept" (c1.accept_header.getD "")
        ({ c1 with headers := some h, accept_header := none },
         if aliasedHeaders then some h else input.headers)
      else (c1, input.headers)
    let c2 := step2.1
    let c3 :=
      if truthyOS c2.response_type then
        { c2 with responseType := c2.response_type, response_type := none }
      else c2
    { result := c3, inputAfter := { input with headers := step2.2 }, freshResult := true }
  else
    let c2 :=
      if truthyOS input.accept_header then
        { input with
            headers := some (hSet (input.headers.getD []) "Accept" (input.accept_header.getD ""))
            accept_header := none }
      else input
    let c3 :=
      if truthyOS c2.response_type then
        { c2 with responseType := c2.response_type, response_type := none }
      else c2
    { result := c3, inputAfter := c3, freshResult := false }

/-- A resolver oracle that never finds a host, for concrete evaluations. -/
def noResolve : String → String → Option String := fun _ _ => none

/-- A locator oracle returning a fixed base URL, for concrete evaluations. -/
def fixedLocator : Option String → String := fun _ => "https://api.example.com"

/-- A descriptor carrying only the deprecated accept_header shorthand. -/
def c4Input : APIRequestParams := { accept_header := some "text/xml" }

/-- Claim C4 counterexample: normalizeRequest does not leave every input
descriptor unchanged.  On a descriptor with no service identity and the
deprecated accept_header field, the call mutates the caller's object in
place: accept_header is removed and a nested headers object with an Accept
entry is created on the input. -/
theorem c4_mutates_input :
    (normalizeRequest noResolve fixedLocator none defaultServiceParams c4Input).inputAfter
      ≠ c4Input := by
  decide

/-- Claim C4 (amended): for a descriptor that declares a service identity and
carries neither deprecated shorthand field, and process-wide defaults without
an accept_header, normalizeRequest returns a new, url-resolved request object
and leaves the input descriptor, including its nested headers object,
unchanged. -/
theorem c4_pure_without_shorthand (resolveHost : String → String → Option String)
    (locatorURL : Option String → String) (defaultAccountId : Option String)
    (global input : APIRequestParams)
    (hsvc : input.service_name.isSome = true ∨ input.service_stack.isSome = true)
    (hah : input.accept_header = none) (hrt : input.response_type = none)
    (hg : global.accept_header = none) :
    (normalizeRequest resolveHost locatorURL defaultAccountId global input).inputAfter = input
    ∧ (normalizeRequest resolveHost locatorURL defaultAccountId global input).freshResult = true
    ∧ (normalizeRequest resolveHost locatorURL defaultAccountId global input).result.url.isSome
        = true := by
  have hcond : (input.service_name.isSome || input.service_stack.isSome) = true := by
    rcases hsvc with h | h <;> simp [h]
  have hmerge : (mergeParams global input).accept_header = none := by
    simp [mergeParams, hah, hg]
  refine ⟨?_, ?_, ?_⟩
  · simp [normalizeRequest, hcond, truthyOS, hmerge]
  · simp [normalizeRequest, hcond, truthyOS, hmerge]
  · simp [normalizeRequest, hcond, truthyOS, hmerge]
    split <;> simp

/-- Concrete instance of c4_pure_without_shorthand: a plain service request
leaves the input untouched and yields a fresh resolved request. -/
theorem c4_pure_without_shorthand_witness :
    (normalizeRequest noResolve fixedLocator none defaultServiceParams
        { service_name := some "aims" }).inputAfter = { service_name := some "aims" }
    ∧ (normalizeRequest noResolve fixedLocator none defaultServiceParams
        { service_name := some "aims" }).freshResult = true
    ∧ (normalizeRequest noResolve fixedLocator none defaultServiceParams
        { service_name := some "aims" }).result.url.isSome = true :=
  c4_pure_without_shorthand noResolve fixedLocator none defaultServiceParams
    { service_name := some "aims" } (Or.inl rfl) rfl rfl rfl

/-- The query-string serialization in AlApiClient.get (src/unnamed/part_001
line 111): each pair becomes `p=encodeURIComponent(v)` and the pairs are
joined with ampersands.  `enc` is the external encodeURIComponent builtin. -/
def serializeParams (enc : String → String) : Option (List (String × String)) → String
  | none => ""
  | some l => String.intercalate "&" (l.map (fun pv => pv.1 ++ "=" ++ enc pv.2))

/-- The cache key computed in AlApiClient.get (src/unnamed/part_001 line 113):
the template literal quotes `normalized.url` as a constant string rather than
interpolating the resolved URL, so the key is the literal text "normalized.url"
followed by an optional query string.  The resolved URL argument is kept to
show the key does not depend on it. -/
def getFullUrl (enc : String → String) (normalizedUrl : String)
    (cfgParams : Option (List (String × String))) : String :=
  let queryParams := serializeParams enc cfgParams
  "normalized.url" ++ (if 0 < queryParams.length then "?" ++ queryParams else "")

/-- The cache ttl resolution in AlApiClient.get (src/unnamed/part_001 lines
115-120): a positive number is used as milliseconds, boolean true means
60000 ms, anything else disables caching. -/
def cacheTTLOf : Option JsTtl → Nat
  | some (.tnum n) => if 0 < n then n else 0
  | some (.tbool b) => if b then 60000 else 0
  | none => 0

/-- Outcome of a GET: the data handed to the caller, the cache store after
the call, and whether the transport was contacted. -/
structure GetOutcome where
  data : JVal
  store : CacheStore
  transportCalled : Bool
deriving Repr, DecidableEq

/-- The caching core of AlApiClient.get (src/unnamed/part_001 lines 106-135),
after request normalization: compute the (literal-string) cache key, return a
truthy cached value without contacting the transport, otherwise call the
transport (modelled by `transportData`, the successful response body) and
cache the response under the same key via setCachedValue. -/
def clientGet (enc : String → String) (now : Nat) (store : CacheStore)
    (normalizedUrl : String) (cfgParams : Option (List (String × String)))
    (ttl : Option JsTtl) (transportData : JVal) : GetOutcome :=
  let fullUrl := getFullUrl enc normalizedUrl cfgParams
  let cacheTTL := cacheTTLOf ttl
  if cacheTTL ≠ 0 then
    match cabinetGet store now fullUrl with
    | some v =>
        if jTruthy v then ⟨v, store, false⟩
        else ⟨transportData, setCachedValue store now fullUrl transportData cacheTTL, true⟩
    | none => ⟨transportData, setCachedValue store now fullUrl transportData cacheTTL, true⟩
  else ⟨transportData, store, true⟩

/-- The cache effect of the write operations post/put/delete/form
(src/unnamed/part_001 lines 149-203): each deletes the cache entry for the
resolved request URL before issuing the transport call, and never writes to
the cache afterwards, so the final store is the deletion's result regardless
of the transport outcome. -/
def clientWrite (store : CacheStore) (normalizedUrl : String) : CacheStore :=
  cabinetDelete store normalizedUrl

/-- The identity encoder, standing in for encodeURIComponent on strings that
need no escaping, for concrete evaluations. -/
def idEnc : String → String := fun s => s

/-- Claim C2 at its failing input: a cacheable GET of a URL, then a write to
that same URL, then another cacheable GET.  The write's deletion targets the
resolved URL key and leaves the store untouched, because the GET cached the
response under the literal key "normalized.url"; the second GET therefore
returns the value cached before the write, without contacting the transport. -/
theorem c2_write_misses_get_cache_key :
    (clientWrite
        (clientGet idEnc 0 [] "https://example.com/aims/v1" none
          (some (.tnum 60000)) (.str "old")).store
        "https://example.com/aims/v1")
      = (clientGet idEnc 0 [] "https://example.com/aims/v1" none
          (some (.tnum 60000)) (.str "old")).store
    ∧ (clientGet idEnc 1
        (clientWrite
          (clientGet idEnc 0 [] "https://example.com/aims/v1" none
            (some (.tnum 60000)) (.str "old")).store
          "https://example.com/aims/v1")
        "https://example.com/aims/v1" none (some (.tnum 60000)) (.str "new")).data
      = .str "old"
    ∧ (clientGet idEnc 1
        (clientWrite
          (clientGet idEnc 0 [] "https://example.com/aims/v1" none
            (some (.tnum 60000)) (.str "old")).store
          "https://example.com/aims/v1")
        "https://example.com/aims/v1" none (some (.tnum 60000)) (.str "new")).transportCalled
      = false := by
  decide

/-- lookupAssoc after insertAssoc at the same key finds the new binding. -/
theorem lookupAssoc_insert_self {α : Type} (k : String) (v : α) (s : List (String × α)) :
    lookupAssoc (insertAssoc k v s) k = some v := by
  simp [insertAssoc, lookupAssoc]

/-- A GET whose key holds a live truthy cached value returns it without
contacting the transport and leaves the store unchanged. -/
theorem clientGet_cache_hit (enc : String → String) (now : Nat) (store : CacheStore)
    (url : String) (ps : Option (List (String × String))) (ttl : Option JsTtl)
    (td v : JVal) (hTTL : cacheTTLOf ttl ≠ 0)
    (hc : cabinetGet store now (getFullUrl enc url ps) = some v)
    (hv : jTruthy v = true) :
    clientGet enc now store url ps ttl td = ⟨v, store, false⟩ := by
  simp [clientGet, hTTL, hc, hv]

/-- Claim C10: the GET cache key is the constant text "normalized.url" plus
the serialized query parameters and is independent of the resolved URL;
consequently two cacheable GETs with identical query parameters but different
target URLs share one cache entry, and the second returns the first's cached
response without contacting the transport. -/
theorem c10_literal_cache_key (enc : String → String) (now : Nat) (store : CacheStore)
    (url1 url2 : String) (ps : Option (List (String × String))) (ttlms : Nat)
    (d d2 : JVal) (h1 : 1000 ≤ ttlms)
    (h3 : cabinetGet store now (getFullUrl enc url1 ps) = none)
    (h2 : jTruthy d = true) :
    getFullUrl enc url1 ps = getFullUrl enc url2 ps
    ∧ getFullUrl enc url1 ps
        = "normalized.url"
          ++ (if 0 < (serializeParams enc ps).length then "?" ++ serializeParams enc ps else "")
    ∧ (clientGet enc now ((clientGet enc now store url1 ps (some (.tnum ttlms)) d).store)
        url2 ps (some (.tnum ttlms)) d2).data = d
    ∧ (clientGet enc now ((clientGet enc now store url1 ps (some (.tnum ttlms)) d).store)
        url2 ps (some (.tnum ttlms)) d2).transportCalled = false := by
  have hkey : getFullUrl enc url2 ps = getFullUrl enc url1 ps := rfl
  have hpos : 0 < ttlms := by omega
  have httl : cacheTTLOf (some (.tnum ttlms)) = ttlms := by simp [cacheTTLOf, hpos]
  have hnotlt : ¬ ttlms < 1000 := by omega
  have hstore1 : (clientGet enc now store url1 ps (some (.tnum ttlms)) d).store
      = insertAssoc (getFullUrl enc url1 ps)
          ⟨d, now + ttlms / 1000 * 1000⟩ store := by
    simp [clientGet, httl, h3, setCachedValue, hnotlt, cabinetSet, hpos.ne']
  have hexp : now < now + ttlms / 1000 * 1000 := by
    have : 1 ≤ ttlms / 1000 := (Nat.one_le_div_iff (by norm_num)).2 h1
    nlinarith
  have hget2 : cabinetGet (clientGet enc now store url1 ps (some (.tnum ttlms)) d).store
      now (getFullUrl enc url2 ps) = some d := by
    rw [hkey, hstore1, cabinetGet, lookupAssoc_insert_self]
    simp [hexp]
  have hfinal := clientGet_cache_hit enc now
    (clientGet enc now store url1 ps (some (.tnum ttlms)) d).store url2 ps
    (some (.tnum ttlms)) d2 d (by simp [httl]; omega) hget2 h2
  exact ⟨rfl, rfl, by rw [hfinal], by rw [hfinal]⟩

/-- Concrete instance of c10_literal_cache_key: two GETs aimed at different
URLs with the same single query parameter share the cached response. -/
theorem c10_literal_cache_key_witness :
    (clientGet idEnc 0
      ((clientGet idEnc 0 [] "https://a.example/x" (some [("q", "1")])
          (some (.tnum 60000)) (.str "first")).store)
      "https://b.example/y" (some [("q", "1")]) (some (.tnum 60000)) (.str "second")).data
    = .str "first" :=
  (c10_literal_cache_key idEnc 0 [] "https://a.example/x" "https://b.example/y"
    (some [("q", "1")]) 60000 (.str "first") (.str "second")
    (by norm_num) rfl rfl).2.2.1

/-- Claim C6: for every key, value, and ttl strictly below 1000 milliseconds,
setting a cached value is a no-op: the store is not modified, and therefore an
immediate get of a key that was absent still returns absent. -/
theorem c6_short_ttl_noop (s : CacheStore) (now : Nat) (k : String) (v : JVal)
    (ttlMs : Nat) (h : ttlMs < 1000) :
    setCachedValue s now k v ttlMs = s ∧
    (cabinetGet s now k = none → cabinetGet (setCachedValue s now k v ttlMs) now k = none) := by
  constructor
  · simp [setCachedValue, h]
  · intro habs
    simpa [setCachedValue, h] using habs

/-- Concrete instance of c6_short_ttl_noop: storing with ttl 500 into the
empty store changes nothing and the key stays absent. -/
theorem c6_short_ttl_noop_witness :
    setCachedValue [] 0 "k" (.str "x") 500 = [] ∧
    cabinetGet (setCachedValue [] 0 "k" (.str "x") 500) 0 "k" = none :=
  ⟨(c6_short_ttl_noop [] 0 "k" (.str "x") 500 (by decide)).1,
   (c6_short_ttl_noop [] 0 "k" (.str "x") 500 (by decide)).2 rfl⟩


/-- A failed transport attempt as seen by the retry logic: either a null
error (no response) or an error response carrying an HTTP status. -/
inductive ErrVal where
  | null : ErrVal
  | resp (status : Nat) : ErrVal
deriving Repr, DecidableEq

/-- Outcome of one transport attempt: the response interceptor resolves
2xx responses and rejects everything else with the response (or null). -/
inductive AttemptOutcome where
  | success (data : JVal) : AttemptOutcome
  | failure (err : ErrVal) : AttemptOutcome
deriving Repr, DecidableEq

/-- AlApiClient.isRetryableError (src/unnamed/part_001 lines 514-529): no
retry without a declared retry_count or once attemptIndex reaches it; a null
error always retries; otherwise retry exactly on status 0, 300-399 or
500-599. -/
def isRetryableError (error : ErrVal) (cfg : APIRequestParams) (attemptIndex : Nat) : Bool :=
  match cfg.retry_count with
  | none => false
  | some rc =>
    if rc ≤ attemptIndex then false
    else
      match error with
      | .null => true
      | .resp s => s = 0 || (300 ≤ s && s ≤ 399) || (500 ≤ s && s ≤ 599)

/-- A retryable error implies the attempt index is below the declared
retry budget. -/
theorem isRetryableError_lt {e : ErrVal} {c : APIRequestParams} {i : Nat}
    (h : isRetryableError e c i = true) : i < c.retry_count.getD 0 := by
  unfold isRetryableError at h
  cases hrc : c.retry_count with
  | none => rw [hrc] at h; simp at h
  | some rc =>
    rw [hrc] at h
    simp only [Option.getD_some]
    by_cases hle : rc ≤ i
    · simp [hle] at h
    · omega

/-- The JavaScript expression `a ? a : d` on an optional number: absent or
zero falls through to the default (used for retry_interval, default 1000). -/
def jsOrNum (a : Option Nat) (d : Nat) : Nat :=
  match a with
  | some n => if n = 0 then d else n
  | none => d

/-- Terminal outcome of a logical request: the successful response data, or
the rejection value of the last attempt. -/
inductive RetryOutcome where
  | ok (data : JVal) : RetryOutcome
  | error (err : ErrVal) : RetryOutcome
deriving Repr, DecidableEq

/-- The observable trace of one logical request through axiosRequest: the
attempt indices in the order the attempts were issued, the backoff delays in
milliseconds slept before each retry, and the terminal outcome. -/
structure RetryTrace where
  attempts : List Nat
  delays : List Nat
  outcome : RetryOutcome
deriving Repr, DecidableEq

/-- AlApiClient.axiosRequest (src/unnamed/part_001 lines 486-509), with the
transport as an oracle keyed by attempt index.  On a retryable failure the
source runs `attemptIndex++`, computes the delay as
`(retry_interval ? retry_interval : 1000) * attemptIndex`, and then recurses
with `attemptIndex + 1` — the already incremented variable plus one — so the
recursive call receives the original index plus two. -/
def axiosRequestAux (cfg : APIRequestParams) (transport : Nat → AttemptOutcome)
    (attemptIndex : Nat) : RetryTrace :=
  match transport attemptIndex with
  | .success d => { attempts := [attemptIndex], delays := [], outcome := .ok d }
  | .failure err =>
    if h : isRetryableError err cfg attemptIndex = true then
      let delay := jsOrNum cfg.retry_interval 1000 * (attemptIndex + 1)
      let rest := axiosRequestAux cfg transport (attemptIndex + 2)
      { attempts := attemptIndex :: rest.attempts
        delays := delay :: rest.delays
        outcome := rest.outcome }
    else
      { attempts := [attemptIndex], delays := [], outcome := .error err }
termination_by cfg.retry_count.getD 0 - attemptIndex
decreasing_by
  have := isRetryableError_lt h
  omega

/-- Executing a request starts at attempt index 0 (the default argument of
axiosRequest in the source). -/
def axiosRequestRun (cfg : APIRequestParams) (transport : Nat → AttemptOutcome) : RetryTrace :=
  axiosRequestAux cfg transport 0

/-- The descriptor of the claim C1 scenario: retry_count 3, retry_interval
1000 ms. -/
def cfg503 : APIRequestParams := { retry_count := some 3, retry_interval := some 1000 }

/-- A transport that fails every attempt with status 503. -/
def always503 : Nat → AttemptOutcome := fun _ => .failure (.resp 503)

/-- Claim C1 at its failing input: with retry_count 3, retry_interval 1000
and a transport that always returns 503, axiosRequest performs only 3 total
attempts, at indices 0, 2 and 4, with delays 1000 ms and 3000 ms, and then
rejects — not the 4 attempts with delays 1000/2000/3000 the claim states,
because the retry path increments attemptIndex and then recurses with
attemptIndex + 1, skipping every other index. -/
theorem c1_retry_skips_attempt_indices :
    (axiosRequestRun cfg503 always503).attempts = [0, 2, 4]
    ∧ (axiosRequestRun cfg503 always503).delays = [1000, 3000]
    ∧ (axiosRequestRun cfg503 always503).outcome = .error (.resp 503) := by
  have hri : jsOrNum cfg503.retry_interval 1000 = 1000 := by decide
  have h4 : axiosRequestAux cfg503 always503 4
      = { attempts := [4], delays := [], outcome := .error (.resp 503) } := by
    rw [axiosRequestAux]
    simp only [always503]
    rw [dif_neg (by decide)]
  have h2 : axiosRequestAux cfg503 always503 2
      = { attempts := [2, 4], delays := [3000], outcome := .error (.resp 503) } := by
    rw [axiosRequestAux]
    simp only [always503]
    rw [dif_pos (by decide)]
    simp [h4, hri]
  have h0 : axiosRequestAux cfg503 always503 0
      = { attempts := [0, 2, 4], delays := [1000, 3000], outcome := .error (.resp 503) } := by
    rw [axiosRequestAux]
    simp only [always503]
    rw [dif_pos (by decide)]
    simp [h2, hri]
  rw [axiosRequestRun, h0]
  exact ⟨rfl, rfl, rfl⟩

/-- Claim C5: isRetryableError returns true exactly when the descriptor
declares a retry budget, the attempt index is strictly below it, and the
failure is a null error, status 0, a 3xx status or a 5xx status; in
particular a 4xx status is never retried. -/
theorem c5_retry_predicate (cfg : APIRequestParams) (err : ErrVal) (i : Nat) :
    (isRetryableError err cfg i = true ↔
      ((∃ rc, cfg.retry_count = some rc ∧ i < rc)
        ∧ (err = .null
            ∨ ∃ s, err = .resp s
                ∧ (s = 0 ∨ (300 ≤ s ∧ s ≤ 399) ∨ (500 ≤ s ∧ s ≤ 599)))))
    ∧ (∀ s, 400 ≤ s → s ≤ 499 → isRetryableError (.resp s) cfg i = false) := by
  constructor
  · constructor
    · intro h
      have hlt := isRetryableError_lt h
      unfold isRetryableError at h
      cases hrc : cfg.retry_count with
      | none => rw [hrc] at h; simp at h
      | some rc =>
        rw [hrc] at h
        rw [hrc] at hlt
        simp only [Option.getD_some] at hlt
        have hni : ¬ rc ≤ i := by omega
        refine ⟨⟨rc, by simp [hrc], hlt⟩, ?_⟩
        cases err with
        | null => exact Or.inl rfl
        | resp s =>
          refine Or.inr ⟨s, rfl, ?_⟩
          simp [hni] at h
          tauto
    · rintro ⟨⟨rc, hrc, hi⟩, herr⟩
      unfold isRetryableError
      rw [hrc]
      have hni : ¬ rc ≤ i := by omega
      rcases herr with h | ⟨s, hs, hcond⟩
      · subst h; simp [hni]
      · subst hs
        simp [hni]
        tauto
  · intro s h4a h4b
    unfold isRetryableError
    cases hrc : cfg.retry_count with
    | none => rfl
    | some rc =>
      by_cases hle : rc ≤ i
      · simp [hle]
      · simp [hle]
        omega

/-- Concrete instance of c5_retry_predicate: with a budget of 3 and attempt
index 0, a 503 failure is retryable and a 404 failure is not. -/
theorem c5_retry_predicate_witness :
    isRetryableError (.resp 503) cfg503 0 = true
    ∧ isRetryableError (.resp 404) cfg503 0 = false :=
  ⟨(c5_retry_predicate cfg503 (.resp 503) 0).1.mpr
      ⟨⟨3, rfl, by omega⟩, Or.inr ⟨503, rfl, Or.inr (Or.inr ⟨by omega, by omega⟩)⟩⟩,
   (c5_retry_predicate cfg503 (.resp 404) 0).2 404 (by omega) (by omega)⟩

/-- Result of the batched discovery transport call: a mapping from service
name to host string (possibly without scheme), or a transport failure. -/
inductive DiscoveryResult where
  | ok (entries : List (String × String)) : DiscoveryResult
  | err : DiscoveryResult

/-- Object.keys of a JavaScript value: field names of an object, index
strings for an array, nothing otherwise. -/
def objectKeys : JVal → List String
  | .map entries => entries.map (fun e => e.1)
  | .arr l => (List.range l.length).map (fun i => toString i)
  | _ => []

/-- hasOwnProperty on a JavaScript value. -/
def hasOwnProp (v : JVal) (k : String) : Bool :=
  (objectKeys v).contains k

/-- Outcome of getServiceEndpoints: the collection handed to the caller, the
cache store afterwards, and the list of discovery request bodies issued. -/
structure GseOutcome where
  collection : JVal
  store : CacheStore
  calls : List (List String)
deriving Repr, DecidableEq

/-- The cache-miss branch of AlApiClient.getServiceEndpoints
(src/unnamed/part_001 lines 406-425): one discovery call is issued; on
success every host is prefixed with a scheme when missing and the translated
map is cached for 15 minutes; on failure every requested service is routed to
the statically resolved host of the dynamic stack, but the value written to
the cache for 5 minutes is `serviceList` — the raw service-name array — not
the fallback map that is returned. -/
def gseFetch (insightURL : String) (now : Nat) (transport : List String → DiscoveryResult)
    (store : CacheStore) (cacheKey : String) (serviceList : List String) : GseOutcome :=
  match transport serviceList with
  | .ok entries =>
      let translated := entries.map
        (fun nh => (nh.1, if nh.2.startsWith "http" then nh.2 else "https://" ++ nh.2))
      ⟨.map translated,
       setCachedValue store now cacheKey (.map translated) (15 * 60 * 1000),
       [serviceList]⟩
  | .err =>
      let serviceLocations := serviceList.map (fun sid => (sid, insightURL))
      ⟨.map serviceLocations,
       setCachedValue store now cacheKey (.arr serviceList) (5 * 60 * 1000),
       [serviceList]⟩

/-- AlApiClient.getServiceEndpoints (src/unnamed/part_001 lines 400-426):
return a live truthy cached value without any network call, otherwise fetch.
`insightURL` models the external AlLocatorService.resolveURL of the dynamic
stack and `transport` the discovery POST. -/
def getServiceEndpoints (insightURL : String) (now : Nat)
    (transport : List String → DiscoveryResult) (store : CacheStore)
    (accountId : String) (serviceList : List String) : GseOutcome :=
  let cacheKey := "/endpoints/" ++ accountId
  match cabinetGet store now cacheKey with
  | some v =>
      if jTruthy v then ⟨v, store, []⟩
      else gseFetch insightURL now transport store cacheKey serviceList
  | none => gseFetch insightURL now transport store cacheKey serviceList

/-- Claim C3 at its failing input: with an empty cache and a failing
discovery transport, getServiceEndpoints for account "2" and services
aims/foo returns (rather than rejecting) the fallback map routing both
services to the static default host — but the value it caches for 5 minutes
under "/endpoints/2" is the raw service-name array, not that fallback map. -/
theorem c3_fallback_caches_name_list :
    (getServiceEndpoints "https://insight.example" 0 (fun _ => .err) [] "2"
        ["aims", "foo"]).collection
      = .map [("aims", "https://insight.example"), ("foo", "https://insight.example")]
    ∧ cabinetGet (getServiceEndpoints "https://insight.example" 0 (fun _ => .err) [] "2"
        ["aims", "foo"]).store 0 "/endpoints/2"
      = some (.arr ["aims", "foo"])
    ∧ lookupAssoc (getServiceEndpoints "https://insight.example" 0 (fun _ => .err) [] "2"
        ["aims", "foo"]).store "/endpoints/2"
      = some ⟨.arr ["aims", "foo"], 300000⟩
    ∧ (getServiceEndpoints "https://insight.example" 0 (fun _ => .err) [] "2"
        ["aims", "foo"]).calls
      = [["aims", "foo"]] := by
  refine ⟨rfl, rfl, rfl, rfl⟩

/-- The full client state threaded through prepare: the class-static
defaultServiceList (shared by every client instance), the per-account
resolution map holding each account's settled endpoint collection, and the
ephemeral cache store. -/
structure ClientState where
  staticList : List String
  resolution : List (String × JVal)
  storage : CacheStore
deriving Repr, DecidableEq

/-- Outcome of prepare: the collection returned to the caller, the client
state afterwards, the discovery request bodies issued and the cache keys
deleted, in order. -/
structure PrepareOutcome where
  collection : JVal
  state : ClientState
  calls : List (List String)
  deletes : List String
deriving Repr, DecidableEq

/-- AlApiClient.prepare (src/unnamed/part_001 lines 382-398), in the
sequential (settled-promise) semantics.  When no resolution exists for the
account, the first branch reads the class-static defaultServiceList into a
local alias and pushes the requested service onto it when missing — mutating
the static list itself — and stores the discovery result.  When the settled
collection lacks the requested service, the cached endpoints entry is
deleted and a new discovery is issued over the previously known keys plus
the new service, replacing the stored computation. -/
def prepare (insightURL : String) (now : Nat)
    (transport : List String → DiscoveryResult) (defaultAccountId : Option String)
    (st : ClientState) (account_id : Option String) (service_name : String) : PrepareOutcome :=
  let accountId := jsOrStr account_id (jsOrStr defaultAccountId "0")
  let step1 :=
    match lookupAssoc st.resolution accountId with
    | some _ => (st, ([] : List (List String)))
    | none =>
      let serviceList :=
        if st.staticList.contains service_name then st.staticList
        else st.staticList ++ [service_name]
      let g := getServiceEndpoints insightURL now transport st.storage accountId serviceList
      ({ staticList := serviceList
         resolution := insertAssoc accountId g.collection st.resolution
         storage := g.store },
       g.calls)
  let st1 := step1.1
  let collection := (lookupAssoc st1.resolution accountId).getD .null
  if hasOwnProp collection service_name then
    ⟨collection, st1, step1.2, []⟩
  else
    let key := "/endpoints/" ++ accountId
    let storage2 := cabinetDelete st1.storage key
    let g2 := getServiceEndpoints insightURL now transport storage2 accountId
      (objectKeys collection ++ [service_name])
    ⟨g2.collection,
     { st1 with
        resolution := insertAssoc accountId g2.collection st1.resolution
        storage := g2.store },
     step1.2 ++ g2.calls,
     [key]⟩

/-- Deleting a key from the cache makes a subsequent get of that key absent. -/
theorem cabinetGet_delete_self (s : CacheStore) (now : Nat) (k : String) :
    cabinetGet (cabinetDelete s k) now k = none := by
  have hlk : lookupAssoc (cabinetDelete s k) k = none := by
    induction s with
    | nil => rfl
    | cons hd tl ih =>
      by_cases hk : hd.1 = k
      · simpa [cabinetDelete, hk] using ih
      · simpa [cabinetDelete, lookupAssoc, hk] using ih
  simp [cabinetGet, hlk]

/-- gseFetch always issues exactly one discovery call, with the given
request body. -/
theorem gseFetch_calls (insightURL : String) (now : Nat)
    (transport : List String → DiscoveryResult) (store : CacheStore)
    (cacheKey : String) (serviceList : List String) :
    (gseFetch insightURL now transport store cacheKey serviceList).calls = [serviceList] := by
  unfold gseFetch
  cases transport serviceList <;> rfl

/-- Claim C7: when the account's resolution exists but the settled collection
lacks the requested service, prepare deletes exactly the account's cached
endpoints entry, issues exactly one further discovery call whose requested
list is the previously known services plus the new one (hence a superset of
the prior keys), and replaces the stored computation for the account with the
new discovery's result. -/
theorem c7_missing_service_rediscovery (insightURL : String) (now : Nat)
    (transport : List String → DiscoveryResult) (defaultAccountId : Option String)
    (st : ClientState) (account_id : Option String) (service_name : String) (coll : JVal)
    (hres : lookupAssoc st.resolution (jsOrStr account_id (jsOrStr defaultAccountId "0"))
      = some coll)
    (hmiss : hasOwnProp coll service_name = false) :
    (prepare insightURL now transport defaultAccountId st account_id service_name).calls
      = [objectKeys coll ++ [service_name]]
    ∧ (prepare insightURL now transport defaultAccountId st account_id service_name).deletes
      = ["/endpoints/" ++ jsOrStr account_id (jsOrStr defaultAccountId "0")]
    ∧ lookupAssoc
        (prepare insightURL now transport defaultAccountId st account_id service_name).state.resolution
        (jsOrStr account_id (jsOrStr defaultAccountId "0"))
      = some (prepare insightURL now transport defaultAccountId st account_id service_name).collection
    ∧ (∀ k ∈ objectKeys coll, k ∈ objectKeys coll ++ [service_name]) := by
  have hkey : getServiceEndpoints insightURL now transport
      (cabinetDelete st.storage
        ("/endpoints/" ++ jsOrStr account_id (jsOrStr defaultAccountId "0")))
      (jsOrStr account_id (jsOrStr defaultAccountId "0"))
      (objectKeys coll ++ [service_name])
      = gseFetch insightURL now transport
          (cabinetDelete st.storage
            ("/endpoints/" ++ jsOrStr account_id (jsOrStr defaultAccountId "0")))
          ("/endpoints/" ++ jsOrStr account_id (jsOrStr defaultAccountId "0"))
          (objectKeys coll ++ [service_name]) := by
    simp only [getServiceEndpoints]
    rw [cabinetGet_delete_self]
  refine ⟨?_, ?_, ?_, ?_⟩
  · simp [prepare, hres, hmiss, hkey, gseFetch_calls]
  · simp [prepare, hres, hmiss]
  · simp [prepare, hres, hmiss, lookupAssoc_insert_self]
  · intro k hk
    exact List.mem_append_left _ hk

/-- Concrete instance of c7_missing_service_rediscovery: account "2" has a
settled map covering only aims; requesting foo deletes /endpoints/2, issues
one discovery for [aims, foo] and stores the new result. -/
theorem c7_missing_service_rediscovery_witness :
    (prepare "https://insight.example" 0 (fun _ => .err) none
        ⟨["aims"], [("2", .map [("aims", "https://a.example")])], []⟩
        (some "2") "foo").calls
      = [["aims", "foo"]]
    ∧ (prepare "https://insight.example" 0 (fun _ => .err) none
        ⟨["aims"], [("2", .map [("aims", "https://a.example")])], []⟩
        (some "2") "foo").deletes
      = ["/endpoints/2"] :=
  ⟨((c7_missing_service_rediscovery "https://insight.example" 0 (fun _ => .err) none
      ⟨["aims"], [("2", .map [("aims", "https://a.example")])], []⟩
      (some "2") "foo" (.map [("aims", "https://a.example")]) rfl (by decide)).1),
   ((c7_missing_service_rediscovery "https://insight.example" 0 (fun _ => .err) none
      ⟨["aims"], [("2", .map [("aims", "https://a.example")])], []⟩
      (some "2") "foo" (.map [("aims", "https://a.example")]) rfl (by decide)).2.1)⟩

/-- Claim C9: a first resolution (no existing computation for the account)
with a service name missing from the class-static defaultServiceList pushes
that name onto the static list itself, so the enlarged watch-list is what
every subsequent first resolution — for any account and any client instance
sharing the class — starts from. -/
theorem c9_static_service_list_mutation (insightURL : String) (now : Nat)
    (transport : List String → DiscoveryResult) (defaultAccountId : Option String)
    (st : ClientState) (account_id : Option String) (service_name : String)
    (hres : lookupAssoc st.resolution (jsOrStr account_id (jsOrStr defaultAccountId "0"))
      = none)
    (hnew : st.staticList.contains service_name = false) :
    (prepare insightURL now transport defaultAccountId st account_id service_name).state.staticList
      = st.staticList ++ [service_name] := by
  have hserv : (if st.staticList.contains service_name then st.staticList
      else st.staticList ++ [service_name]) = st.staticList ++ [service_name] := by
    rw [hnew]
    simp
  simp only [prepare, hres, hserv]
  split <;> rfl

/-- Concrete instance of c9_static_service_list_mutation: a fresh client
state resolving service foo for account "2" permanently appends foo to the
static default watch-list. -/
theorem c9_static_service_list_mutation_witness :
    (prepare "https://insight.example" 0 (fun _ => .err) none
        ⟨["aims", "search"], [], []⟩ (some "2") "foo").state.staticList
      = ["aims", "search", "foo"] :=
  c9_static_service_list_mutation "https://insight.example" 0 (fun _ => .err) none
    ⟨["aims", "search"], [], []⟩ (some "2") "foo" rfl (by decide)

/-- The per-account pending-resolution bookkeeping of prepare, before any
settlement: `pending` maps an account to the identifying handle of its stored
in-flight discovery computation (`this.endpointResolution[accountId]`),
`nextId` generates fresh handles, and `callLog` records, in order, the
account of each discovery network call issued. -/
structure ResolverState where
  pending : String → Option Nat
  nextId : Nat
  callLog : List String

/-- The synchronous prefix of AlApiClient.prepare (src/unnamed/part_001 lines
383-391) as executed before the pending computation settles, with a cold
endpoints cache (the first resolution): if the account already has a stored
computation the caller just shares it and nothing is issued; otherwise one
discovery call is issued and its handle is stored under the account key. -/
def prepareStart (st : ResolverState) (account : String) : ResolverState :=
  match st.pending account with
  | some _ => st
  | none =>
      { pending := fun x => if x = account then some st.nextId else st.pending x
        nextId := st.nextId + 1
        callLog := st.callLog ++ [account] }

/-- A sequence of prepare calls interleaved before any settlement, in the
single-threaded cooperative scheduling of the source: each event is the
account id of one prepare call reaching its synchronous prefix. -/
def runEvents (st : ResolverState) (evs : List String) : ResolverState :=
  evs.foldl prepareStart st

/-- Claim C8: before the pending computation settles, every prepare call for
an account shares the single stored computation — a stored handle is never
replaced — and the number of discovery calls issued for an account grows by
exactly one when the account was unresolved and is targeted, and by zero
otherwise; since the count for each account depends only on that account's
own events, resolutions for different accounts are independent. -/
theorem c8_single_inflight_per_account (st : ResolverState) (evs : List String) (a : String) :
    ((runEvents st evs).callLog.count a
      = st.callLog.count a + (if st.pending a = none ∧ a ∈ evs then 1 else 0))
    ∧ (∀ p, st.pending a = some p → (runEvents st evs).pending a = some p) := by
  induction evs generalizing st with
  | nil => simp [runEvents]
  | cons e rest ih =>
    have hrun : runEvents st (e :: rest) = runEvents (prepareStart st e) rest := rfl
    constructor
    · rw [hrun, (ih (prepareStart st e)).1]
      unfold prepareStart
      cases hpe : st.pending e with
      | some q =>
        by_cases hae : a = e
        · subst hae
          simp [hpe]
        · simp [List.mem_cons, hae]
      | none =>
        by_cases hae : a = e
        · subst hae
          simp [hpe, List.count_append]
        · have h0 : List.count a [e] = 0 :=
            List.count_eq_zero.2 (by simp [hae])
          have hcnt : (st.callLog ++ [e]).count a = st.callLog.count a := by
            simp [List.count_append, h0]
          simp only [hcnt, List.mem_cons]
          have hpa : (fun x => if x = e then some st.nextId else st.pending x) a
              = st.pending a := by
            simp [hae]
          simp [hpa, hae]
    · intro p hp
      rw [hrun]
      refine (ih (prepareStart st e)).2 p ?_
      unfold prepareStart
      cases hpe : st.pending e with
      | some q => exact hp
      | none =>
        have hae : a ≠ e := by
          intro h
          rw [h, hpe] at hp
          exact absurd hp (by simp)
        simp [hae, hp]

/-- Concrete instance of c8_single_inflight_per_account: from a state where
account "9" already has a stored computation with handle 7, the event
sequence [1, 1, 9, 2] leaves "9"'s handle untouched with no call for it,
issues exactly one call for account "1" despite two overlapping prepares,
and exactly one for account "2". -/
theorem c8_single_inflight_per_account_witness :
    (runEvents ⟨fun x => if x = "9" then some 7 else none, 8, []⟩
        ["1", "1", "9", "2"]).pending "9" = some 7
    ∧ (runEvents ⟨fun x => if x = "9" then some 7 else none, 8, []⟩
        ["1", "1", "9", "2"]).callLog.count "9" = 0
    ∧ (runEvents ⟨fun x => if x = "9" then some 7 else none, 8, []⟩
        ["1", "1", "9", "2"]).callLog.count "1" = 1
    ∧ (runEvents ⟨fun x => if x = "9" then some 7 else none, 8, []⟩
        ["1", "1", "9", "2"]).callLog.count "2" = 1 := by
  refine ⟨?_, ?_, ?_, ?_⟩
  · exact (c8_single_inflight_per_account
      ⟨fun x => if x = "9" then some 7 else none, 8, []⟩ ["1", "1", "9", "2"] "9").2 7 rfl
  · have h := (c8_single_inflight_per_account
      ⟨fun x => if x = "9" then some 7 else none, 8, []⟩ ["1", "1", "9", "2"] "9").1
    simpa using h
  · have h := (c8_single_inflight_per_account
      ⟨fun x => if x = "9" then some 7 else none, 8, []⟩ ["1", "1", "9", "2"] "1").1
    simpa using h
  · have h := (c8_single_inflight_per_account
      ⟨fun x => if x = "9" then some 7 else none, 8, []⟩ ["1", "1", "9", "2"] "2").1
    simpa using h
